import Mathlib

/-!
Shallow embedding of the window-management subsystem of the list-maker
repository (the WindowSystem class: window lifecycle, position validation,
smart placement, z-order, minimize/restore, per-view position snapshots,
and the stuck-window correction scans).

DOM reads/writes, console logging and timers are side channels the registry
itself does not depend on; they are omitted.  The browser viewport
(window.innerWidth / window.innerHeight) is passed explicitly as a
Viewport argument.  JavaScript Maps are modelled as lists of records keyed
by id (a Map holds at most one entry per key; operations that update an
existing entry are modelled as a map over the list restricted to that id).
-/

namespace ListMaker

/-- Pixel position, top-left origin. -/
structure Pos where
  x : Int
  y : Int
deriving DecidableEq, Repr

/-- Pixel size. -/
structure Size where
  width : Int
  height : Int
deriving DecidableEq, Repr

/-- Viewport dimensions (window.innerWidth, window.innerHeight). -/
structure Viewport where
  width : Int
  height : Int
deriving DecidableEq, Repr

/-- Window type tag: the source stores the string 'list' or 'item'. -/
inductive WinType where
  | list
  | item
deriving DecidableEq, Repr

/-- One window record, the value stored in this.windows. -/
structure WindowRecord where
  id : Nat
  type : WinType
  position : Pos
  size : Size
  zIndex : Int
  minimized : Bool
deriving DecidableEq, Repr

/-- Geometry snapshot stored per view by savePositionsForView. -/
structure SavedPos where
  x : Int
  y : Int
  width : Int
  height : Int
  zIndex : Int
deriving DecidableEq, Repr

/-- HEADER_HEIGHT constant of the WindowSystem constructor. -/
def HEADER_HEIGHT : Int := 140

/-- POSITION_CONSTRAINTS object of the WindowSystem constructor. -/
structure Constraints where
  minX : Int
  minY : Int
  maxXOffset : Int
  maxYOffset : Int
  minVisibleWidth : Int
  minVisibleHeight : Int

def POSITION_CONSTRAINTS : Constraints :=
  ⟨0, HEADER_HEIGHT + 10, 100, 100, 50, 30⟩

/-- The WindowSystem state: the id-keyed window table, the z-index counter,
the per-view saved positions and the minimized-id set. -/
structure WindowSystem where
  windows : List WindowRecord
  maxZIndex : Int
  viewPositions : String → Option (List (Nat × SavedPos))
  minimizedWindows : List Nat

/-- Fresh WindowSystem as built by the constructor. -/
def emptySystem : WindowSystem :=
  ⟨[], 100, fun _ => none, []⟩

/-- this.windows.get(id). -/
def getWindow (s : WindowSystem) (id : Nat) : Option WindowRecord :=
  s.windows.find? (fun w => w.id == id)

/-- Mutation of the Map entry with the given id (the JS code looks the
record object up and assigns to its fields): every record with that id is
rewritten by f, all others are untouched. -/
def updateById (ws : List WindowRecord) (id : Nat) (f : WindowRecord → WindowRecord) :
    List WindowRecord :=
  ws.map fun w => if w.id = id then f w else w

/-- Map.set: replace the entry with the record's id if present, else append. -/
def mapSet (ws : List WindowRecord) (r : WindowRecord) : List WindowRecord :=
  if ws.any (fun w => w.id == r.id) then
    updateById ws r.id (fun _ => r)
  else
    ws ++ [r]

/-- validatePosition(x, y, width, height): clamp x to
[minX, viewport.width - minVisibleWidth] and y to
[minY, viewport.height - minVisibleHeight], each coordinate via an
if / else-if chain.  The width and height parameters are declared (with
defaults 350 and 400) but never read by the body. -/
def validatePosition (vp : Viewport) (x y width height : Int) : Pos :=
  let minX := POSITION_CONSTRAINTS.minX
  let minY := POSITION_CONSTRAINTS.minY
  let maxX := vp.width - POSITION_CONSTRAINTS.minVisibleWidth
  let maxY := vp.height - POSITION_CONSTRAINTS.minVisibleHeight
  let validX := if x < minX then minX else if x > maxX then maxX else x
  let validY := if y < minY then minY else if y > maxY then maxY else y
  ⟨validX, validY⟩

/-- constrainPosition: legacy alias that forwards to validatePosition. -/
def constrainPosition (vp : Viewport) (x y width height : Int) : Pos :=
  validatePosition vp x y width height

/-- isPositionAccessible(x, y). -/
def isPositionAccessible (vp : Viewport) (x y : Int) : Bool :=
  decide (y ≥ POSITION_CONSTRAINTS.minY) &&
  decide (x ≥ POSITION_CONSTRAINTS.minX) &&
  decide (x ≤ vp.width - POSITION_CONSTRAINTS.minVisibleWidth) &&
  decide (y ≤ vp.height - POSITION_CONSTRAINTS.minVisibleHeight)

/-- Overlap test of getSmartPosition: the candidate's box against each
existing window's box, both taken at the fixed default size 350x400 (the
source uses the local windowWidth/windowHeight constants for the existing
windows too, not their stored sizes) and padded by margin 20. -/
def overlapsAny (ws : List WindowRecord) (cx cy : Int) : Bool :=
  ws.any fun w =>
    let windowRight := w.position.x + 350
    let windowBottom := w.position.y + 400
    let candidateRight := cx + 350
    let candidateBottom := cy + 400
    !(decide (cx > windowRight + 20) ||
      decide (candidateRight < w.position.x - 20) ||
      decide (cy > windowBottom + 20) ||
      decide (candidateBottom < w.position.y - 20))

/-- Candidate x for cascade attempt a. -/
def candX (a : Nat) : Int := 100 + ((a % 5 : Nat) : Int) * 30

/-- Candidate y for cascade attempt a. -/
def candY (a : Nat) : Int := HEADER_HEIGHT + ((a / 5 : Nat) : Int) * 30

/-- getSmartPosition(): base anchor (100, HEADER_HEIGHT) when the table is
empty; otherwise the first of 20 cascade candidates that overlaps no
existing window, and if all 20 overlap, the fallback
anchor + (count * 30, count * 30). -/
def getSmartPosition (s : WindowSystem) : Pos :=
  if s.windows.length = 0 then
    ⟨100, HEADER_HEIGHT⟩
  else
    match (List.range 20).find? (fun a => !(overlapsAny s.windows (candX a) (candY a))) with
    | some a => ⟨candX a, candY a⟩
    | none =>
      let fallbackOffset := (s.windows.length : Int) * 30
      ⟨100 + fallbackOffset, HEADER_HEIGHT + fallbackOffset⟩

/-- Caller-supplied config for createWindow.  Call sites in the repository
pass position, size and zIndex (plus a title string irrelevant to
geometry); absent fields are none. -/
structure WindowConfig where
  position : Option Pos
  size : Option Size
  zIndex : Option Int
deriving DecidableEq, Repr

/-- createWindow(id, type, config): choose config.position or
getSmartPosition, run it through validatePosition — and then the trailing
object-spread of config overwrites the position (and size, zIndex) fields
with config's own values whenever they are present, so a supplied
config.position is stored verbatim.  zIndex comes from config.zIndex when
supplied (the counter is then not incremented) and from the
post-incremented counter otherwise.  Map.set replaces any existing entry
with the same id. -/
def createWindow (s : WindowSystem) (vp : Viewport) (id : Nat) (ty : WinType)
    (cfg : WindowConfig) : WindowSystem × WindowRecord :=
  let proposedPosition := cfg.position.getD (getSmartPosition s)
  let proposedSize := cfg.size.getD ⟨350, 400⟩
  let validPosition :=
    validatePosition vp proposedPosition.x proposedPosition.y
      proposedSize.width proposedSize.height
  let zIndex := match cfg.zIndex with
    | some z => z
    | none => s.maxZIndex
  let newMax := match cfg.zIndex with
    | some _ => s.maxZIndex
    | none => s.maxZIndex + 1
  let storedPosition := match cfg.position with
    | some p => p
    | none => validPosition
  let windowConfig : WindowRecord :=
    ⟨id, ty, storedPosition, proposedSize, zIndex, false⟩
  (⟨mapSet s.windows windowConfig, newMax, s.viewPositions, s.minimizedWindows⟩,
   windowConfig)

/-- destroyWindow(id): remove the record and the minimized-set membership;
false when absent. -/
def destroyWindow (s : WindowSystem) (id : Nat) : WindowSystem × Bool :=
  match getWindow s id with
  | none => (s, false)
  | some _ =>
    (⟨s.windows.filter (fun w => w.id ≠ id), s.maxZIndex, s.viewPositions,
      s.minimizedWindows.filter (fun i => i ≠ id)⟩, true)

/-- moveWindow(id, x, y): validate against the record's current size and
store the corrected position; false when the id is absent. -/
def moveWindow (s : WindowSystem) (vp : Viewport) (id : Nat) (x y : Int) :
    WindowSystem × Bool :=
  match getWindow s id with
  | none => (s, false)
  | some w =>
    let validPos := validatePosition vp x y w.size.width w.size.height
    (⟨updateById s.windows id (fun w' => { w' with position := validPos }),
      s.maxZIndex, s.viewPositions, s.minimizedWindows⟩, true)

/-- resizeWindow(id, width, height): clamp to the 300x200 floors and store;
position untouched; false when absent. -/
def resizeWindow (s : WindowSystem) (id : Nat) (width height : Int) :
    WindowSystem × Bool :=
  match getWindow s id with
  | none => (s, false)
  | some _ =>
    let constrainedWidth := max 300 width
    let constrainedHeight := max 200 height
    (⟨updateById s.windows id (fun w' => { w' with size := ⟨constrainedWidth, constrainedHeight⟩ }),
      s.maxZIndex, s.viewPositions, s.minimizedWindows⟩, true)

/-- bringToFront(id): window.zIndex = ++this.maxZIndex; false when absent. -/
def bringToFront (s : WindowSystem) (id : Nat) : WindowSystem × Bool :=
  match getWindow s id with
  | none => (s, false)
  | some _ =>
    (⟨updateById s.windows id (fun w' => { w' with zIndex := s.maxZIndex + 1 }),
      s.maxZIndex + 1, s.viewPositions, s.minimizedWindows⟩, true)

/-- Set.add on the minimized-id set. -/
def addMinimized (l : List Nat) (id : Nat) : List Nat :=
  if l.contains id then l else l ++ [id]

/-- minimizeWindow(id): set the flag, add the id to the minimized set.
captureWindowState only copies geometry back from a DOM element and is a
no-op in the registry model; false when absent. -/
def minimizeWindow (s : WindowSystem) (id : Nat) : WindowSystem × Bool :=
  match getWindow s id with
  | none => (s, false)
  | some _ =>
    (⟨updateById s.windows id (fun w' => { w' with minimized := true }),
      s.maxZIndex, s.viewPositions, addMinimized s.minimizedWindows id⟩, true)

/-- restoreWindow(id): validate the retained position against the current
viewport, store it, clear the flag and the set membership, then
bringToFront; false when absent. -/
def restoreWindow (s : WindowSystem) (vp : Viewport) (id : Nat) :
    WindowSystem × Bool :=
  match getWindow s id with
  | none => (s, false)
  | some w =>
    let validPosition :=
      validatePosition vp w.position.x w.position.y w.size.width w.size.height
    let s' : WindowSystem :=
      ⟨updateById s.windows id (fun w' => { w' with position := validPosition, minimized := false }),
        s.maxZIndex, s.viewPositions, s.minimizedWindows.filter (fun i => i ≠ id)⟩
    ((bringToFront s' id).1, true)

/-- savePositionsForView(viewKey): record {x, y, width, height, zIndex} of
every non-minimized window under the key.  The DOM branch reads the
element's offset geometry, which mirrors the stored record; the registry
model uses the stored record (the source's own fallback path). -/
def savePositionsForView (s : WindowSystem) (viewKey : String) : WindowSystem :=
  let positions : List (Nat × SavedPos) :=
    s.windows.filterMap fun w =>
      if w.minimized then none
      else some (w.id, ⟨w.position.x, w.position.y, w.size.width, w.size.height, w.zIndex⟩)
  ⟨s.windows, s.maxZIndex,
    fun k => if k = viewKey then some positions else s.viewPositions k,
    s.minimizedWindows⟩

/-- One saved entry applied by restorePositionsForView: look up the id; if
present and not minimized, validate the saved position against the current
viewport and store it together with the saved size and zIndex. -/
def applySavedEntry (vp : Viewport) (ws : List WindowRecord)
    (e : Nat × SavedPos) : List WindowRecord :=
  updateById ws e.1 fun w =>
    if w.minimized then w
    else
      let validPos := validatePosition vp e.2.x e.2.y e.2.width e.2.height
      { w with position := validPos, size := ⟨e.2.width, e.2.height⟩, zIndex := e.2.zIndex }

/-- restorePositionsForView(viewKey): no-op for an unknown key; otherwise
apply every saved entry. -/
def restorePositionsForView (s : WindowSystem) (vp : Viewport) (viewKey : String) :
    WindowSystem :=
  match s.viewPositions viewKey with
  | none => s
  | some positions =>
    ⟨positions.foldl (applySavedEntry vp) s.windows, s.maxZIndex,
      s.viewPositions, s.minimizedWindows⟩

/-- generateViewKey(currentView, zoomedListId, zoomedItemId). -/
def generateViewKey (currentView : String) (zoomedListId zoomedItemId : Option Nat) :
    String :=
  if currentView = "root" then "root"
  else if currentView = "zoomed" then
    match zoomedItemId, zoomedListId with
    | some i, some l => "list-" ++ toString l ++ "-item-" ++ toString i
    | some i, none => "list-" ++ "-item-" ++ toString i
    | none, some l => "list-" ++ toString l
    | none, none => "list-"
  else "unknown"

/-- One iteration of the fixStuckWindows forEach: validate the window's
stored position and, when correction is needed, apply it through
moveWindow (counting the fix). -/
def fixStep (vp : Viewport) (acc : WindowSystem × Nat) (i : Nat) :
    WindowSystem × Nat :=
  match getWindow acc.1 i with
  | none => acc
  | some w =>
    let validatedPos :=
      validatePosition vp w.position.x w.position.y w.size.width w.size.height
    if validatedPos = w.position then acc
    else ((moveWindow acc.1 vp i validatedPos.x validatedPos.y).1, acc.2 + 1)

/-- fixStuckWindows(): scan every window (minimized ones included — the
forEach has no minimized check) and move any whose position validation is
not a no-op; returns the number of windows fixed. -/
def fixStuckWindows (s : WindowSystem) (vp : Viewport) : WindowSystem × Nat :=
  (s.windows.map (fun w => w.id)).foldl (fixStep vp) (s, 0)

/-- One iteration of the bindResizeHandler forEach: constrainPosition is
called with only x and y (width/height take their unused defaults) and the
window is moved when the result differs. -/
def resizeFixStep (vp : Viewport) (s : WindowSystem) (i : Nat) : WindowSystem :=
  match getWindow s i with
  | none => s
  | some w =>
    let constrainedPos := constrainPosition vp w.position.x w.position.y 350 400
    if constrainedPos.x = w.position.x ∧ constrainedPos.y = w.position.y then s
    else (moveWindow s vp i constrainedPos.x constrainedPos.y).1

/-- bindResizeHandler's resize listener body: constrain every window's
position (minimized ones included) and move those that changed. -/
def windowResizeFix (s : WindowSystem) (vp : Viewport) : WindowSystem :=
  (s.windows.map (fun w => w.id)).foldl (resizeFixStep vp) s

/-- Public registry operations, for stating invariants over call
sequences. -/
inductive WinOp where
  | create (id : Nat) (ty : WinType) (cfg : WindowConfig)
  | destroy (id : Nat)
  | move (id : Nat) (x y : Int)
  | resize (id : Nat) (width height : Int)
  | front (id : Nat)
  | minimize (id : Nat)
  | restore (id : Nat)
deriving DecidableEq, Repr

def applyOp (vp : Viewport) (s : WindowSystem) : WinOp → WindowSystem
  | .create id ty cfg => (createWindow s vp id ty cfg).1
  | .destroy id => (destroyWindow s id).1
  | .move id x y => (moveWindow s vp id x y).1
  | .resize id width height => (resizeWindow s id width height).1
  | .front id => (bringToFront s id).1
  | .minimize id => (minimizeWindow s id).1
  | .restore id => (restoreWindow s vp id).1

def applyOps (vp : Viewport) (s : WindowSystem) (ops : List WinOp) : WindowSystem :=
  ops.foldl (applyOp vp) s

/-! Concrete states used by the scenario claims. -/

/-- The 1920x1080 viewport of the spec's scenario. -/
def vp1920 : Viewport := ⟨1920, 1080⟩

/-- Empty createWindow config. -/
def noCfg : WindowConfig := ⟨none, none, none⟩

/-- Window A of the scenario: created with no explicit position. -/
def c3SystemA : WindowSystem := (createWindow emptySystem vp1920 1 WinType.list noCfg).1

def c4First : WindowSystem := (createWindow emptySystem vp1920 1 WinType.list noCfg).1

def c4Second : WindowSystem :=
  (createWindow c4First vp1920 1 WinType.item ⟨some ⟨400, 400⟩, none, none⟩).1

/-- One window occupying exactly the base anchor rectangle (100, 140) at the
default 350x400 size. -/
def c7System : WindowSystem :=
  (createWindow emptySystem vp1920 1 WinType.list ⟨some ⟨100, 140⟩, none, none⟩).1

/-- A window parked at (1000, 200) and then minimized. -/
def c8System : WindowSystem :=
  (minimizeWindow (createWindow emptySystem vp1920 1 WinType.list ⟨some ⟨1000, 200⟩, none, none⟩).1 1).1

def vpSmall : Viewport := ⟨800, 600⟩

/-- A window created at the default spot and then minimized: its retained
geometry (100, 150) stays valid even on the 800x600 viewport. -/
def c8ValidMin : WindowSystem :=
  (minimizeWindow (createWindow emptySystem vp1920 1 WinType.list noCfg).1 1).1

/-- Pathologically narrow viewport: width 30 < minVisibleWidth. -/
def vpNarrow : Viewport := ⟨30, 600⟩

/-- A registry holding a record whose stored x (5000) lies outside the
1920-wide viewport's clamp range. -/
def c5BadSystem : WindowSystem :=
  (createWindow emptySystem vp1920 1 WinType.list ⟨some ⟨5000, 200⟩, none, none⟩).1

/-- Window 1 created with caller-supplied zIndex 9999, window 2 from the counter. -/
def c6System : WindowSystem :=
  (createWindow (createWindow emptySystem vp1920 1 WinType.list ⟨none, none, some 9999⟩).1
    vp1920 2 WinType.list noCfg).1

def c10Ops : List WinOp :=
  [WinOp.create 1 WinType.list noCfg, WinOp.minimize 1, WinOp.create 1 WinType.list noCfg]

def c10System : WindowSystem := applyOps vp1920 emptySystem c10Ops

/-- C1: evaluation of createWindow at the failing input.  The code computes
the validated position (5, 150) for a supplied config.position of (5, 10),
but the trailing object-spread of config overwrites the stored position
with the raw (5, 10), whose y = 10 violates the minY bound 150. -/
theorem c1_createWindow_stores_unvalidated_config_position :
    (createWindow emptySystem vp1920 1 WinType.list ⟨some ⟨5, 10⟩, none, none⟩).2.position = ⟨5, 10⟩ ∧
    (getWindow (createWindow emptySystem vp1920 1 WinType.list ⟨some ⟨5, 10⟩, none, none⟩).1 1).map
      (fun w => w.position) = some ⟨5, 10⟩ ∧
    validatePosition vp1920 5 10 350 400 = ⟨5, 150⟩ ∧
    ¬ (POSITION_CONSTRAINTS.minY ≤ (10 : Int)) := by
  decide

/-- C3 counterexample: in the spec scenario (viewport 1920x1080), move(A, 5, 10)
stores (5, 150) — x = 5 is inside [0, 1870] and is not clamped — not the
claimed (0, 150). -/
theorem c3_counterexample :
    (getWindow (moveWindow c3SystemA vp1920 1 5 10).1 1).map (fun w => w.position) =
      some ⟨5, 150⟩ ∧
    some (⟨5, 150⟩ : Pos) ≠ some (⟨0, 150⟩ : Pos) := by
  decide

/-- C3 amended: creating A with no explicit position stores (100, 150), and
move(A, 5, 10) succeeds and stores the corrected position (5, 150): only the
y coordinate is clamped, x = 5 already satisfies the horizontal bounds. -/
theorem c3_amended_scenario :
    (getWindow c3SystemA 1).map (fun w => w.position) = some ⟨100, 150⟩ ∧
    (getWindow (moveWindow c3SystemA vp1920 1 5 10).1 1).map (fun w => w.position) =
      some ⟨5, 150⟩ ∧
    (moveWindow c3SystemA vp1920 1 5 10).2 = true := by
  decide

/-- C4 counterexample: createWindow with an id already registered does not
fail: the second create replaces the first record (one record remains for
the id, carrying the second call's type and position). -/
theorem c4_counterexample :
    (getWindow c4First 1).isSome = true ∧
    c4Second.windows.length = 1 ∧
    (getWindow c4Second 1).map (fun w => (w.type, w.position)) =
      some (WinType.item, ⟨400, 400⟩) := by
  decide

/-- C7 counterexample: with one window at the anchor rectangle, every one of
the 20 cascade candidates overlaps it, so getSmartPosition returns the
fallback (130, 170) — and that fallback does intersect the existing
window's padded bounding box. -/
theorem c7_counterexample :
    getSmartPosition c7System = ⟨130, 170⟩ ∧
    overlapsAny c7System.windows 130 170 = true := by
  decide

/-- C7 amended: with zero windows getSmartPosition returns the base anchor
(100, HEADER_HEIGHT); with one window at that anchor rectangle it returns
the cascading fallback (130, 170), whose padded bounding box does intersect
the existing window's. -/
theorem c7_amended_placement :
    getSmartPosition emptySystem = ⟨100, HEADER_HEIGHT⟩ ∧
    getSmartPosition c7System = ⟨130, 170⟩ ∧
    overlapsAny c7System.windows 130 170 = true := by
  decide

/-- C9 counterexample: on a 30-pixel-wide viewport the right bound is
maxX = -20 < minX = 0, and validatePosition(10, 200) returns x = -20, the
collapsed right bound — not minX as claimed. -/
theorem c9_counterexample :
    validatePosition vpNarrow 10 200 350 400 = ⟨-20, 200⟩ ∧
    (validatePosition vpNarrow 10 200 350 400).x ≠ POSITION_CONSTRAINTS.minX := by
  decide

/-- C8 counterexample: a minimized window stored at (1000, 200) is moved to
(750, 200) by the fixStuckWindows scan after the viewport shrinks to
800x600 — the scan does mutate minimized geometry. -/
theorem c8_counterexample :
    (getWindow (fixStuckWindows c8System vpSmall).1 1).map
      (fun w => (w.position, w.minimized)) = some (⟨750, 200⟩, true) ∧
    some ((⟨750, 200⟩ : Pos), true) ≠ some ((⟨1000, 200⟩ : Pos), true) := by
  decide

/-- C5 counterexample: save then immediately restore under the same viewport
moves a stored out-of-bounds rectangle: the record at x = 5000 comes back
at the clamped x = 1870, so the round trip is not exact on this state. -/
theorem c5_counterexample :
    (getWindow c5BadSystem 1).map (fun w => w.position) = some ⟨5000, 200⟩ ∧
    (getWindow (restorePositionsForView (savePositionsForView c5BadSystem "k") vp1920 "k") 1).map
      (fun w => w.position) = some ⟨1870, 200⟩ ∧
    some (⟨1870, 200⟩ : Pos) ≠ some (⟨5000, 200⟩ : Pos) := by
  decide

/-- C6 counterexample: window 1 was created with caller-supplied zOrder 9999,
which bypasses the shared counter; bringToFront(2) then assigns 102, so the
most recently fronted window does not exceed every other zOrder. -/
theorem c6_counterexample :
    (getWindow (bringToFront c6System 2).1 2).map (fun w => w.zIndex) = some 102 ∧
    (getWindow (bringToFront c6System 2).1 1).map (fun w => w.zIndex) = some 9999 ∧
    ¬ ((9999 : Int) < 102) := by
  decide

/-- C10 counterexample: create(1), minimize(1), then create(1) again: the
duplicate create resets the record's minimized flag to false but never
removes the id from minimizedWindows, breaking the coherence invariant. -/
theorem c10_counterexample :
    (1 ∈ c10System.minimizedWindows) ∧
    (getWindow c10System 1).map (fun w => w.minimized) = some false := by
  decide

/-! General lemmas about the embedded operations. -/

theorem foldl_pres_mem {σ α : Type _} (P : σ → Prop) {step : σ → α → σ} :
    ∀ (l : List α), (∀ s a, a ∈ l → P s → P (step s a)) → ∀ s, P s → P (l.foldl step s) := by
  intro l
  induction l with
  | nil => intro _ s hs; exact hs
  | cons a t ih =>
    intro h s hs
    exact ih (fun s' b hb => h s' b (List.mem_cons_of_mem _ hb)) _
      (h s a (List.mem_cons_self _ _) hs)

theorem mem_updateById {ws : List WindowRecord} {i : Nat} {f : WindowRecord → WindowRecord}
    {w' : WindowRecord} (h : w' ∈ updateById ws i f) :
    ∃ w ∈ ws, w' = if w.id = i then f w else w := by
  rcases List.mem_map.1 h with ⟨w, hw, he⟩
  exact ⟨w, hw, he.symm⟩

theorem find?_updateById_ne (ws : List WindowRecord) (i j : Nat)
    (f : WindowRecord → WindowRecord) (hf : ∀ w, w.id = i → (f w).id = i) (hij : j ≠ i) :
    (updateById ws i f).find? (fun w => w.id == j) = ws.find? (fun w => w.id == j) := by
  unfold updateById
  rw [List.find?_map]
  have hp : ((fun w : WindowRecord => w.id == j) ∘ fun w => if w.id = i then f w else w) =
      fun w : WindowRecord => w.id == j := by
    funext w
    by_cases hwi : w.id = i
    · simp [hwi, hf w hwi, Ne.symm hij]
    · simp [hwi]
  rw [hp]
  cases hfind : ws.find? (fun w => w.id == j) with
  | none => rfl
  | some w₀ =>
    have hid : w₀.id = j := by
      have := List.find?_some hfind
      simpa using this
    have : ¬ w₀.id = i := by rw [hid]; exact hij
    simp [this]

theorem find?_updateById_self (ws : List WindowRecord) (i : Nat)
    (f : WindowRecord → WindowRecord) (hf : ∀ w, w.id = i → (f w).id = i) :
    (updateById ws i f).find? (fun w => w.id == i) =
      (ws.find? (fun w => w.id == i)).map f := by
  unfold updateById
  rw [List.find?_map]
  have hp : ((fun w : WindowRecord => w.id == i) ∘ fun w => if w.id = i then f w else w) =
      fun w : WindowRecord => w.id == i := by
    funext w
    by_cases hwi : w.id = i
    · simp [hwi, hf w hwi]
    · simp [hwi]
  rw [hp]
  cases hfind : ws.find? (fun w => w.id == i) with
  | none => rfl
  | some w₀ =>
    have hid : w₀.id = i := by
      have := List.find?_some hfind
      simpa using this
    simp [hid]

theorem getWindow_moveWindow_ne (s : WindowSystem) (vp : Viewport) (i : Nat) (x y : Int)
    (j : Nat) (hij : j ≠ i) : getWindow (moveWindow s vp i x y).1 j = getWindow s j := by
  unfold moveWindow
  cases hg : getWindow s i with
  | none => rfl
  | some w =>
    show ((⟨_, _, _, _⟩ : WindowSystem)).windows.find? _ = _
    exact find?_updateById_ne s.windows i j _ (fun w' hw' => hw') hij

theorem validatePosition_y_ge (vp : Viewport) (hvp : 180 ≤ vp.height) (x y width height : Int) :
    150 ≤ (validatePosition vp x y width height).y := by
  dsimp only [validatePosition, POSITION_CONSTRAINTS, HEADER_HEIGHT]
  split_ifs <;> omega

/-- The body of validatePosition never reads its width/height parameters. -/
theorem validatePosition_size_irrelevant (vp : Viewport) (x y a b c d : Int) :
    validatePosition vp x y a b = validatePosition vp x y c d := rfl

/-! C2: preservation of the geometric invariant by move/resize/restore. -/

/-- Well-formed starting state of claim C2: every record satisfies the
hard size floors, and every non-minimized record clears the header. -/
def StartInv (s : WindowSystem) : Prop :=
  ∀ w ∈ s.windows,
    (300 ≤ w.size.width ∧ 200 ≤ w.size.height) ∧
    (w.minimized = false → 150 ≤ w.position.y)

instance (s : WindowSystem) : Decidable (StartInv s) :=
  inferInstanceAs (Decidable (∀ w ∈ s.windows,
    (300 ≤ w.size.width ∧ 200 ≤ w.size.height) ∧ (w.minimized = false → 150 ≤ w.position.y)))

/-- The invariant asserted by claim C2 for every non-minimized record. -/
def NonMinGeom (s : WindowSystem) : Prop :=
  ∀ w ∈ s.windows, w.minimized = false →
    150 ≤ w.position.y ∧ 300 ≤ w.size.width ∧ 200 ≤ w.size.height

instance (s : WindowSystem) : Decidable (NonMinGeom s) :=
  inferInstanceAs (Decidable (∀ w ∈ s.windows, w.minimized = false →
    150 ≤ w.position.y ∧ 300 ≤ w.size.width ∧ 200 ≤ w.size.height))

/-- The operations claim C2 quantifies over. -/
def isMRR : WinOp → Bool
  | .move _ _ _ => true
  | .resize _ _ _ => true
  | .restore _ => true
  | _ => false

theorem startInv_move (vp : Viewport) (hvp : 180 ≤ vp.height) (s : WindowSystem)
    (i : Nat) (x y : Int) (hs : StartInv s) : StartInv (moveWindow s vp i x y).1 := by
  unfold moveWindow
  cases hg : getWindow s i with
  | none => exact hs
  | some w =>
    intro w' hw'
    rcases mem_updateById hw' with ⟨w₀, hmem, he⟩
    by_cases hwi : w₀.id = i
    · rw [he, if_pos hwi]
      refine ⟨(hs w₀ hmem).1, fun _ => ?_⟩
      exact validatePosition_y_ge vp hvp x y w.size.width w.size.height
    · rw [he, if_neg hwi]; exact hs w₀ hmem

theorem startInv_resize (s : WindowSystem) (i : Nat) (a b : Int) (hs : StartInv s) :
    StartInv (resizeWindow s i a b).1 := by
  unfold resizeWindow
  cases hg : getWindow s i with
  | none => exact hs
  | some w =>
    intro w' hw'
    rcases mem_updateById hw' with ⟨w₀, hmem, he⟩
    by_cases hwi : w₀.id = i
    · rw [he, if_pos hwi]
      exact ⟨⟨le_max_left _ _, le_max_left _ _⟩, fun hm => (hs w₀ hmem).2 hm⟩
    · rw [he, if_neg hwi]; exact hs w₀ hmem

theorem startInv_front (s : WindowSystem) (i : Nat) (hs : StartInv s) :
    StartInv (bringToFront s i).1 := by
  unfold bringToFront
  cases hg : getWindow s i with
  | none => exact hs
  | some w =>
    intro w' hw'
    rcases mem_updateById hw' with ⟨w₀, hmem, he⟩
    by_cases hwi : w₀.id = i
    · rw [he, if_pos hwi]; exact hs w₀ hmem
    · rw [he, if_neg hwi]; exact hs w₀ hmem

theorem startInv_restore (vp : Viewport) (hvp : 180 ≤ vp.height) (s : WindowSystem)
    (i : Nat) (hs : StartInv s) : StartInv (restoreWindow s vp i).1 := by
  unfold restoreWindow
  cases hg : getWindow s i with
  | none => exact hs
  | some w =>
    refine startInv_front _ i ?_
    intro w' hw'
    rcases mem_updateById hw' with ⟨w₀, hmem, he⟩
    by_cases hwi : w₀.id = i
    · rw [he, if_pos hwi]
      refine ⟨(hs w₀ hmem).1, fun _ => ?_⟩
      exact validatePosition_y_ge vp hvp w.position.x w.position.y w.size.width w.size.height
    · rw [he, if_neg hwi]; exact hs w₀ hmem

/-- C2: for every sequence of move/resize/restore operations over a fixed
non-degenerate viewport, starting from a state whose records satisfy the
size floors and whose non-minimized records clear the header, every
non-minimized record satisfies y >= 150, width >= 300 and height >= 200
after each call (every prefix of a sequence is itself such a sequence). -/
theorem c2_move_resize_restore_preserve_geometry (vp : Viewport) (s₀ : WindowSystem)
    (ops : List WinOp) (hvp : 180 ≤ vp.height) (hs : StartInv s₀)
    (hops : ∀ op ∈ ops, isMRR op = true) :
    NonMinGeom (applyOps vp s₀ ops) := by
  have hinv : StartInv (applyOps vp s₀ ops) := by
    refine foldl_pres_mem StartInv ops ?_ s₀ hs
    intro s op hop hsi
    have hmrr := hops op hop
    cases op with
    | move i x y => exact startInv_move vp hvp s i x y hsi
    | resize i a b => exact startInv_resize s i a b hsi
    | restore i => exact startInv_restore vp hvp s i hsi
    | create i ty cfg => simp [isMRR] at hmrr
    | destroy i => simp [isMRR] at hmrr
    | front i => simp [isMRR] at hmrr
    | minimize i => simp [isMRR] at hmrr
  intro w hw hm
  rcases hinv w hw with ⟨⟨h1, h2⟩, h3⟩
  exact ⟨h3 hm, h1, h2⟩

/-- Witness for C2 at the spec's scenario data. -/
theorem c2_witness :
    (180 ≤ vp1920.height) ∧ StartInv c3SystemA ∧
    (∀ op ∈ [WinOp.move 1 5 10, WinOp.resize 1 10 10, WinOp.restore 1], isMRR op = true) ∧
    NonMinGeom (applyOps vp1920 c3SystemA [WinOp.move 1 5 10, WinOp.resize 1 10 10, WinOp.restore 1]) :=
  ⟨by decide, by decide, by decide,
    c2_move_resize_restore_preserve_geometry vp1920 c3SystemA _ (by decide) (by decide) (by decide)⟩

/-- C9 amended: on a pathologically narrow viewport (right bound below
minX), an x below minX is clamped to minX, but any other x is clamped to
the collapsed right bound viewport.width - minVisibleWidth, which lies
below minX; the function stays total either way. -/
theorem c9_amended_narrow_viewport_clamp (vp : Viewport) (x y width height : Int)
    (h : vp.width - POSITION_CONSTRAINTS.minVisibleWidth < POSITION_CONSTRAINTS.minX) :
    (validatePosition vp x y width height).x =
      if x < POSITION_CONSTRAINTS.minX then POSITION_CONSTRAINTS.minX
      else vp.width - POSITION_CONSTRAINTS.minVisibleWidth := by
  have h' : vp.width - 50 < 0 := by
    simpa [POSITION_CONSTRAINTS] using h
  dsimp only [validatePosition, POSITION_CONSTRAINTS, HEADER_HEIGHT]
  split_ifs <;> omega

/-- Witness for C9 at the 30-pixel-wide viewport. -/
theorem c9_witness :
    (vpNarrow.width - POSITION_CONSTRAINTS.minVisibleWidth < POSITION_CONSTRAINTS.minX) ∧
    (validatePosition vpNarrow 10 200 350 400).x =
      (if (10 : Int) < POSITION_CONSTRAINTS.minX then POSITION_CONSTRAINTS.minX
       else vpNarrow.width - POSITION_CONSTRAINTS.minVisibleWidth) :=
  ⟨by decide, c9_amended_narrow_viewport_clamp vpNarrow 10 200 350 400 (by decide)⟩

/-! C6: z-order maintenance when every zIndex comes from the shared counter. -/

/-- Every stored zIndex is bounded by the shared counter.  This holds on
every reachable state as long as no caller supplies its own zIndex. -/
def ZBound (s : WindowSystem) : Prop :=
  ∀ w ∈ s.windows, w.zIndex ≤ s.maxZIndex

instance (s : WindowSystem) : Decidable (ZBound s) :=
  inferInstanceAs (Decidable (∀ w ∈ s.windows, w.zIndex ≤ s.maxZIndex))

/-- True for operations that do not inject a caller-supplied zIndex. -/
def counterOnly : WinOp → Bool
  | .create _ _ cfg => cfg.zIndex.isNone
  | _ => true

theorem zBound_front (s : WindowSystem) (i : Nat) (hz : ZBound s) :
    ZBound (bringToFront s i).1 := by
  unfold bringToFront
  cases hg : getWindow s i with
  | none => exact hz
  | some w =>
    intro w' hw'
    rcases mem_updateById hw' with ⟨w₀, hmem, he⟩
    by_cases hwi : w₀.id = i
    · rw [he, if_pos hwi]
    · rw [he, if_neg hwi]
      have := hz w₀ hmem
      show w₀.zIndex ≤ s.maxZIndex + 1
      omega

theorem mem_mapSet {ws : List WindowRecord} {r w' : WindowRecord}
    (h : w' ∈ mapSet ws r) : w' = r ∨ w' ∈ ws := by
  unfold mapSet at h
  split at h
  · rcases mem_updateById h with ⟨w₀, hmem, he⟩
    by_cases hwi : w₀.id = r.id
    · left; rw [he, if_pos hwi]
    · right; rw [he, if_neg hwi]; exact hmem
  · rcases List.mem_append.1 h with hm | hm
    · right; exact hm
    · left; exact List.mem_singleton.1 hm

theorem zle_updateById {ws : List WindowRecord} {i : Nat} {f : WindowRecord → WindowRecord}
    {m : Int} (w' : WindowRecord) (hw' : w' ∈ updateById ws i f)
    (h : ∀ w ∈ ws, w.zIndex ≤ m) (hf : ∀ w, (f w).zIndex = w.zIndex) :
    w'.zIndex ≤ m := by
  rcases mem_updateById hw' with ⟨w₀, hmem, he⟩
  by_cases hwi : w₀.id = i
  · rw [he, if_pos hwi, hf]; exact h w₀ hmem
  · rw [he, if_neg hwi]; exact h w₀ hmem

theorem zBound_applyOp (vp : Viewport) (s : WindowSystem) (op : WinOp)
    (hop : counterOnly op = true) (hz : ZBound s) : ZBound (applyOp vp s op) := by
  cases op with
  | create i ty cfg =>
    show ZBound (createWindow s vp i ty cfg).1
    cases hcz : cfg.zIndex with
    | some z => simp [counterOnly, hcz] at hop
    | none =>
      unfold createWindow
      rw [hcz]
      intro w' hw'
      rcases mem_mapSet hw' with he | hmem
      · rw [he]
        show s.maxZIndex ≤ s.maxZIndex + 1
        omega
      · have := hz w' hmem
        show w'.zIndex ≤ s.maxZIndex + 1
        omega
  | destroy i =>
    show ZBound (destroyWindow s i).1
    unfold destroyWindow
    cases hg : getWindow s i with
    | none => exact hz
    | some w =>
      intro w' hw'
      exact hz w' (List.mem_filter.1 hw').1
  | move i x y =>
    show ZBound (moveWindow s vp i x y).1
    unfold moveWindow
    cases hg : getWindow s i with
    | none => exact hz
    | some w =>
      intro w' hw'
      exact zle_updateById w' hw' hz (fun _ => rfl)
  | resize i a b =>
    show ZBound (resizeWindow s i a b).1
    unfold resizeWindow
    cases hg : getWindow s i with
    | none => exact hz
    | some w =>
      intro w' hw'
      exact zle_updateById w' hw' hz (fun _ => rfl)
  | front i => exact zBound_front s i hz
  | minimize i =>
    show ZBound (minimizeWindow s i).1
    unfold minimizeWindow
    cases hg : getWindow s i with
    | none => exact hz
    | some w =>
      intro w' hw'
      exact zle_updateById w' hw' hz (fun _ => rfl)
  | restore i =>
    show ZBound (restoreWindow s vp i).1
    unfold restoreWindow
    cases hg : getWindow s i with
    | none => exact hz
    | some w =>
      refine zBound_front _ i ?_
      intro w' hw'
      exact zle_updateById w' hw' hz (fun _ => rfl)

/-- C6 amended: when every zIndex has been assigned from the shared counter
(no caller-supplied zOrder anywhere in the history), the window passed to
bringToFront ends up with a zOrder strictly greater than that of every
other window in the registry. -/
theorem c6_amended_front_tops_counter (vp : Viewport) (s₀ : WindowSystem) (ops : List WinOp)
    (id : Nat) (w : WindowRecord) (hz : ZBound s₀)
    (hops : ∀ op ∈ ops, counterOnly op = true)
    (hw : getWindow (applyOps vp s₀ ops) id = some w) :
    ∃ wf, getWindow (bringToFront (applyOps vp s₀ ops) id).1 id = some wf ∧
      ∀ w' ∈ (bringToFront (applyOps vp s₀ ops) id).1.windows, w'.id ≠ id →
        w'.zIndex < wf.zIndex := by
  have hzb : ZBound (applyOps vp s₀ ops) :=
    foldl_pres_mem ZBound ops (fun s op hop h => zBound_applyOp vp s op (hops op hop) h) s₀ hz
  refine ⟨{ w with zIndex := (applyOps vp s₀ ops).maxZIndex + 1 }, ?_, ?_⟩
  · show getWindow _ id = _
    unfold bringToFront
    rw [hw]
    show (updateById (applyOps vp s₀ ops).windows id
        (fun w' => { w' with zIndex := (applyOps vp s₀ ops).maxZIndex + 1 })).find?
        (fun w => w.id == id) = _
    rw [find?_updateById_self (applyOps vp s₀ ops).windows id
        (fun w' => { w' with zIndex := (applyOps vp s₀ ops).maxZIndex + 1 })
        (fun w' hw' => hw')]
    have hw2 : List.find? (fun w => w.id == id) (applyOps vp s₀ ops).windows = some w := hw
    rw [hw2]
    rfl
  · intro w' hw' hne
    revert hw'
    unfold bringToFront
    rw [hw]
    intro hw'
    rcases mem_updateById hw' with ⟨w₀, hmem, he⟩
    by_cases hwi : w₀.id = id
    · exfalso
      apply hne
      rw [he, if_pos hwi]
      exact hwi
    · rw [he, if_neg hwi]
      have := hzb w₀ hmem
      show w₀.zIndex < ({ w with zIndex := (applyOps vp s₀ ops).maxZIndex + 1 } : WindowRecord).zIndex
      simp only []
      omega

def c6GoodOps : List WinOp :=
  [WinOp.create 1 WinType.list noCfg, WinOp.create 2 WinType.list noCfg]

/-- Witness for C6: two counter-assigned windows, fronting window 2. -/
theorem c6_witness :
    ZBound emptySystem ∧
    (∀ op ∈ c6GoodOps, counterOnly op = true) ∧
    getWindow (applyOps vp1920 emptySystem c6GoodOps) 2 =
      some ⟨2, WinType.list, ⟨130, 170⟩, ⟨350, 400⟩, 101, false⟩ ∧
    (∃ wf, getWindow (bringToFront (applyOps vp1920 emptySystem c6GoodOps) 2).1 2 = some wf ∧
      ∀ w' ∈ (bringToFront (applyOps vp1920 emptySystem c6GoodOps) 2).1.windows, w'.id ≠ 2 →
        w'.zIndex < wf.zIndex) :=
  ⟨by decide, by decide, by decide,
    c6_amended_front_tops_counter vp1920 emptySystem c6GoodOps 2
      ⟨2, WinType.list, ⟨130, 170⟩, ⟨350, 400⟩, 101, false⟩
      (by decide) (by decide) (by decide)⟩

/-! C8: scans versus minimized windows. -/

theorem getWindow_bringToFront_self (s : WindowSystem) (i : Nat) (w : WindowRecord)
    (h : getWindow s i = some w) :
    getWindow (bringToFront s i).1 i = some { w with zIndex := s.maxZIndex + 1 } := by
  unfold bringToFront
  rw [h]
  show (updateById s.windows i (fun w' => { w' with zIndex := s.maxZIndex + 1 })).find?
    (fun x => x.id == i) = _
  rw [find?_updateById_self s.windows i (fun w' => { w' with zIndex := s.maxZIndex + 1 })
    (fun w' hw' => hw')]
  have h2 : List.find? (fun x => x.id == i) s.windows = some w := h
  rw [h2]
  rfl

theorem getWindow_fixStep (vp : Viewport) (acc : WindowSystem × Nat) (i : Nat)
    {id : Nat} {w : WindowRecord}
    (hv : validatePosition vp w.position.x w.position.y w.size.width w.size.height = w.position)
    (h : getWindow acc.1 id = some w) :
    getWindow (fixStep vp acc i).1 id = some w := by
  unfold fixStep
  by_cases hii : i = id
  · subst hii
    simp only [h]
    rw [if_pos hv]
    exact h
  · cases hg : getWindow acc.1 i with
    | none => simp only [hg]; exact h
    | some wi =>
      simp only [hg]
      split
      · exact h
      · show getWindow (moveWindow acc.1 vp i _ _).1 id = some w
        rw [getWindow_moveWindow_ne acc.1 vp i _ _ id (fun hh => hii hh.symm)]
        exact h

theorem getWindow_resizeFixStep (vp : Viewport) (st : WindowSystem) (i : Nat)
    {id : Nat} {w : WindowRecord}
    (hv : validatePosition vp w.position.x w.position.y w.size.width w.size.height = w.position)
    (h : getWindow st id = some w) :
    getWindow (resizeFixStep vp st i) id = some w := by
  unfold resizeFixStep
  by_cases hii : i = id
  · subst hii
    simp only [h]
    have hcp : constrainPosition vp w.position.x w.position.y 350 400 = w.position := by
      unfold constrainPosition
      rw [validatePosition_size_irrelevant vp w.position.x w.position.y 350 400
        w.size.width w.size.height]
      exact hv
    rw [hcp]
    rw [if_pos ⟨rfl, rfl⟩]
    exact h
  · cases hg : getWindow st i with
    | none => simp only [hg]; exact h
    | some wi =>
      simp only [hg]
      split
      · exact h
      · show getWindow (moveWindow st vp i _ _).1 id = some w
        rw [getWindow_moveWindow_ne st vp i _ _ id (fun hh => hii hh.symm)]
        exact h

/-- C8 amended: the fixStuckWindows scan and the resize-handler correction
iterate over minimized windows too; a minimized window's record survives a
scan unchanged exactly when its retained position already satisfies the
current viewport's clamp bounds (the counterexample shows an out-of-bounds
minimized window being moved), and restoreWindow re-validates the retained
geometry against whatever viewport is current at restore time. -/
theorem c8_amended_minimized_scan (vp vp2 : Viewport) (s : WindowSystem) (id : Nat)
    (w : WindowRecord) (hw : getWindow s id = some w) (hm : w.minimized = true)
    (hv : validatePosition vp w.position.x w.position.y w.size.width w.size.height = w.position) :
    getWindow (fixStuckWindows s vp).1 id = some w ∧
    getWindow (windowResizeFix s vp) id = some w ∧
    (getWindow (restoreWindow s vp2 id).1 id).map (fun r => (r.position, r.minimized)) =
      some (validatePosition vp2 w.position.x w.position.y w.size.width w.size.height, false) := by
  refine ⟨?_, ?_, ?_⟩
  · unfold fixStuckWindows
    exact foldl_pres_mem (fun acc => getWindow acc.1 id = some w) _
      (fun acc i _ hacc => getWindow_fixStep vp acc i hv hacc) (s, 0) hw
  · unfold windowResizeFix
    exact foldl_pres_mem (fun st => getWindow st id = some w) _
      (fun st i _ hst => getWindow_resizeFixStep vp st i hv hst) s hw
  · unfold restoreWindow
    rw [hw]
    have hs' : getWindow
        (⟨updateById s.windows id (fun w' => { w' with
            position := validatePosition vp2 w.position.x w.position.y w.size.width w.size.height,
            minimized := false }),
          s.maxZIndex, s.viewPositions,
          s.minimizedWindows.filter (fun i => i ≠ id)⟩ : WindowSystem) id =
        some { w with
          position := validatePosition vp2 w.position.x w.position.y w.size.width w.size.height,
          minimized := false } := by
      show (updateById s.windows id _).find? (fun x => x.id == id) = _
      rw [find?_updateById_self s.windows id (fun w' => { w' with
          position := validatePosition vp2 w.position.x w.position.y w.size.width w.size.height,
          minimized := false }) (fun w' hw' => hw')]
      have h2 : List.find? (fun x => x.id == id) s.windows = some w := hw
      rw [h2]
      rfl
    have hfront := getWindow_bringToFront_self _ id _ hs'
    rw [hfront]
    rfl

/-- Witness for C8: the minimized window at (100, 150) is valid under the
800x600 viewport, survives both scans, and restore re-validates it against
a 400x300 viewport. -/
theorem c8_witness :
    getWindow c8ValidMin 1 = some ⟨1, WinType.list, ⟨100, 150⟩, ⟨350, 400⟩, 100, true⟩ ∧
    (⟨1, WinType.list, ⟨100, 150⟩, ⟨350, 400⟩, 100, true⟩ : WindowRecord).minimized = true ∧
    validatePosition vpSmall 100 150 350 400 = ⟨100, 150⟩ ∧
    (getWindow (fixStuckWindows c8ValidMin vpSmall).1 1 =
        some ⟨1, WinType.list, ⟨100, 150⟩, ⟨350, 400⟩, 100, true⟩ ∧
      getWindow (windowResizeFix c8ValidMin vpSmall) 1 =
        some ⟨1, WinType.list, ⟨100, 150⟩, ⟨350, 400⟩, 100, true⟩ ∧
      (getWindow (restoreWindow c8ValidMin ⟨400, 300⟩ 1).1 1).map
          (fun r => (r.position, r.minimized)) =
        some (validatePosition ⟨400, 300⟩ 100 150 350 400, false)) :=
  ⟨by decide, by decide, by decide,
    c8_amended_minimized_scan vpSmall ⟨400, 300⟩ c8ValidMin 1
      ⟨1, WinType.list, ⟨100, 150⟩, ⟨350, 400⟩, 100, true⟩
      (by decide) (by decide) (by decide)⟩


/-! C4: duplicate create replaces the existing record. -/

theorem getWindow_mapSet_present (ws : List WindowRecord) (r : WindowRecord)
    (h : ∃ w ∈ ws, w.id = r.id) :
    (mapSet ws r).find? (fun x => x.id == r.id) = some r ∧
    (mapSet ws r).length = ws.length := by
  have hany : ws.any (fun w => w.id == r.id) = true := by
    rcases h with ⟨w, hw, hid⟩
    exact List.any_eq_true.2 ⟨w, hw, by simp [hid]⟩
  unfold mapSet
  rw [if_pos hany]
  constructor
  · rw [find?_updateById_self ws r.id (fun _ => r) (fun w hw => rfl)]
    have hsome : (ws.find? (fun x => x.id == r.id)).isSome = true := by
      rcases h with ⟨w, hw, hid⟩
      exact List.find?_isSome.2 ⟨w, hw, by simp [hid]⟩
    cases hfind : ws.find? (fun x => x.id == r.id) with
    | none => rw [hfind] at hsome; cases hsome
    | some w0 => rfl
  · exact List.length_map ws _

/-- C4 amended: createWindow with an id already present in the registry does
not fail with DuplicateId: it silently replaces the existing record — the
lookup afterwards returns the newly built record and the table size is
unchanged. -/
theorem c4_amended_duplicate_create_replaces (s : WindowSystem) (vp : Viewport) (id : Nat)
    (ty : WinType) (cfg : WindowConfig) (h : ∃ w ∈ s.windows, w.id = id) :
    getWindow (createWindow s vp id ty cfg).1 id = some (createWindow s vp id ty cfg).2 ∧
    (createWindow s vp id ty cfg).1.windows.length = s.windows.length := by
  have := getWindow_mapSet_present s.windows (createWindow s vp id ty cfg).2 h
  exact ⟨this.1, this.2⟩

/-- Witness for C4: re-creating id 1 on a registry that already holds it. -/
theorem c4_witness :
    (∃ w ∈ c4First.windows, w.id = 1) ∧
    (getWindow (createWindow c4First vp1920 1 WinType.item ⟨some ⟨400, 400⟩, none, none⟩).1 1 =
        some (createWindow c4First vp1920 1 WinType.item ⟨some ⟨400, 400⟩, none, none⟩).2 ∧
      (createWindow c4First vp1920 1 WinType.item ⟨some ⟨400, 400⟩, none, none⟩).1.windows.length =
        c4First.windows.length) :=
  ⟨by decide,
    c4_amended_duplicate_create_replaces c4First vp1920 1 WinType.item
      ⟨some ⟨400, 400⟩, none, none⟩ (by decide)⟩

/-! C5: the save/restore round trip on in-bounds states. -/

theorem applySavedEntry_self_id (vp : Viewport) (ws : List WindowRecord) (w : WindowRecord)
    (hn : (ws.map WindowRecord.id).Nodup) (hmem : w ∈ ws) (hmin : w.minimized = false)
    (hv : validatePosition vp w.position.x w.position.y w.size.width w.size.height = w.position) :
    applySavedEntry vp ws
      (w.id, ⟨w.position.x, w.position.y, w.size.width, w.size.height, w.zIndex⟩) = ws := by
  unfold applySavedEntry updateById
  refine (List.map_congr_left ?_).trans (List.map_id ws)
  intro w' hw'
  by_cases hwi : w'.id = w.id
  · have hww : w' = w := List.inj_on_of_nodup_map hn hw' hmem hwi
    subst hww
    obtain ⟨wid, wty, wpos, wsize, wz, wmin⟩ := w'
    dsimp only at hmin hv ⊢
    subst hmin
    have hcond : wid = wid := rfl
    rw [if_pos hcond, hv]
    rfl
  · simp [hwi]

theorem foldl_applySaved_id (vp : Viewport) (ws : List WindowRecord)
    (P : List (Nat × SavedPos)) (hP : ∀ e ∈ P, applySavedEntry vp ws e = ws) :
    P.foldl (applySavedEntry vp) ws = ws := by
  induction P with
  | nil => rfl
  | cons e t ih =>
    simp only [List.foldl_cons]
    rw [hP e (List.mem_cons_self _ _)]
    exact ih (fun e' he' => hP e' (List.mem_cons_of_mem _ he'))

/-- C5 amended: save(viewKey) immediately followed by restore(viewKey), same
viewport and no intervening mutation, leaves the whole window table exactly
unchanged (hence every non-minimized window's position, size and zOrder)
provided every non-minimized record's stored position already satisfies the
viewport's clamp bounds; restore re-validates, so an out-of-bounds stored
rectangle is corrected instead of reproduced. -/
theorem c5_amended_roundtrip (vp : Viewport) (s : WindowSystem) (k : String)
    (hn : (s.windows.map WindowRecord.id).Nodup)
    (hv : ∀ w ∈ s.windows, w.minimized = false →
      validatePosition vp w.position.x w.position.y w.size.width w.size.height = w.position) :
    (restorePositionsForView (savePositionsForView s k) vp k).windows = s.windows := by
  unfold savePositionsForView restorePositionsForView
  simp only [if_pos rfl]
  refine foldl_applySaved_id vp s.windows _ ?_
  intro e he
  rcases List.mem_filterMap.1 he with ⟨w, hwmem, hfe⟩
  by_cases hmin : w.minimized = true
  · rw [if_pos hmin] at hfe
    cases hfe
  · have hminf : w.minimized = false := by
      cases hb : w.minimized
      · rfl
      · exact absurd hb hmin
    rw [if_neg hmin] at hfe
    have he2 := Option.some.inj hfe
    rw [← he2]
    exact applySavedEntry_self_id vp s.windows w hn hwmem hminf (hv w hwmem hminf)

/-- Witness for C5: round trip over the in-bounds single-window registry. -/
theorem c5_witness :
    ((c3SystemA.windows.map WindowRecord.id).Nodup) ∧
    (∀ w ∈ c3SystemA.windows, w.minimized = false →
      validatePosition vp1920 w.position.x w.position.y w.size.width w.size.height = w.position) ∧
    (restorePositionsForView (savePositionsForView c3SystemA "root") vp1920 "root").windows =
      c3SystemA.windows :=
  ⟨by decide, by decide, c5_amended_roundtrip vp1920 c3SystemA "root" (by decide) (by decide)⟩


/-! C10: coherence of the minimized-id set with the minimized flags. -/

/-- The registry/minimized-set coherence property of claim C10. -/
def Coherent (s : WindowSystem) : Prop :=
  ∀ j : Nat, j ∈ s.minimizedWindows ↔ ∃ w ∈ s.windows, w.id = j ∧ w.minimized = true

/-- Side condition of the amended claim: create must not be invoked on an id
currently in the minimized set (the counterexample shows the duplicate
create of a minimized window breaking coherence). -/
def opOK (s : WindowSystem) : WinOp → Bool
  | .create i _ _ => !(s.minimizedWindows.contains i)
  | _ => true

def chainOK (vp : Viewport) : WindowSystem → List WinOp → Bool
  | _, [] => true
  | s, op :: rest => opOK s op && chainOK vp (applyOp vp s op) rest

theorem mem_addMinimized {l : List Nat} {i a : Nat} :
    a ∈ addMinimized l i ↔ a ∈ l ∨ a = i := by
  unfold addMinimized
  by_cases hc : l.contains i = true
  · rw [if_pos hc]
    have hi : i ∈ l := by
      rcases List.contains_iff_exists_mem_beq.1 hc with ⟨a', ha', he⟩
      have hae : i = a' := by simpa using he
      rw [hae]; exact ha'
    constructor
    · exact Or.inl
    · rintro (h1 | rfl)
      · exact h1
      · exact hi
  · rw [if_neg hc]
    rw [List.mem_append, List.mem_singleton]

theorem exists_minimized_updateById {ws : List WindowRecord} {j : Nat}
    {f : WindowRecord → WindowRecord}
    (hf : ∀ w, (f w).id = w.id ∧ (f w).minimized = w.minimized) (i : Nat) :
    (∃ w' ∈ updateById ws i f, w'.id = j ∧ w'.minimized = true) ↔
      (∃ w ∈ ws, w.id = j ∧ w.minimized = true) := by
  constructor
  · rintro ⟨w', hw', hid, hmin⟩
    rcases mem_updateById hw' with ⟨w, hw, he⟩
    by_cases hwi : w.id = i
    · rw [he, if_pos hwi] at hid hmin
      exact ⟨w, hw, by rw [← (hf w).1]; exact hid, by rw [← (hf w).2]; exact hmin⟩
    · rw [he, if_neg hwi] at hid hmin
      exact ⟨w, hw, hid, hmin⟩
  · rintro ⟨w, hw, hid, hmin⟩
    refine ⟨if w.id = i then f w else w, List.mem_map.2 ⟨w, hw, rfl⟩, ?_, ?_⟩
    · by_cases hwi : w.id = i
      · rw [if_pos hwi, (hf w).1]; exact hid
      · rw [if_neg hwi]; exact hid
    · by_cases hwi : w.id = i
      · rw [if_pos hwi, (hf w).2]; exact hmin
      · rw [if_neg hwi]; exact hmin

theorem coherent_same_set_updateById (s : WindowSystem) (i : Nat)
    (f : WindowRecord → WindowRecord) (z : Int)
    (v : String → Option (List (Nat × SavedPos))) (h : Coherent s)
    (hf : ∀ w, (f w).id = w.id ∧ (f w).minimized = w.minimized) :
    Coherent ⟨updateById s.windows i f, z, v, s.minimizedWindows⟩ := by
  intro j
  dsimp only
  rw [h j]
  exact (exists_minimized_updateById hf i).symm

theorem coherent_move (vp : Viewport) (s : WindowSystem) (i : Nat) (x y : Int)
    (h : Coherent s) : Coherent (moveWindow s vp i x y).1 := by
  unfold moveWindow
  cases hg : getWindow s i with
  | none => exact h
  | some w =>
    refine coherent_same_set_updateById s i _ _ _ h ?_
    exact fun w' => ⟨rfl, rfl⟩

theorem coherent_resize (s : WindowSystem) (i : Nat) (a b : Int) (h : Coherent s) :
    Coherent (resizeWindow s i a b).1 := by
  unfold resizeWindow
  cases hg : getWindow s i with
  | none => exact h
  | some w =>
    refine coherent_same_set_updateById s i _ _ _ h ?_
    exact fun w' => ⟨rfl, rfl⟩

theorem coherent_front (s : WindowSystem) (i : Nat) (h : Coherent s) :
    Coherent (bringToFront s i).1 := by
  unfold bringToFront
  cases hg : getWindow s i with
  | none => exact h
  | some w =>
    refine coherent_same_set_updateById s i _ _ _ h ?_
    exact fun w' => ⟨rfl, rfl⟩

theorem coherent_destroy (s : WindowSystem) (i : Nat) (h : Coherent s) :
    Coherent (destroyWindow s i).1 := by
  unfold destroyWindow
  cases hg : getWindow s i with
  | none => exact h
  | some w =>
    intro j
    dsimp only
    constructor
    · intro hj
      have hj' := List.mem_filter.1 hj
      have hji : j ≠ i := by simpa using hj'.2
      rcases (h j).1 hj'.1 with ⟨w', hw', hid, hmin⟩
      refine ⟨w', List.mem_filter.2 ⟨hw', ?_⟩, hid, hmin⟩
      simp [hid, hji]
    · rintro ⟨w', hw', hid, hmin⟩
      have hmem := List.mem_filter.1 hw'
      have hwne : w'.id ≠ i := by simpa using hmem.2
      have hji : j ≠ i := hid ▸ hwne
      refine List.mem_filter.2 ⟨(h j).2 ⟨w', hmem.1, hid, hmin⟩, ?_⟩
      simp [hji]

theorem coherent_minimize (s : WindowSystem) (i : Nat) (h : Coherent s) :
    Coherent (minimizeWindow s i).1 := by
  unfold minimizeWindow
  cases hg : getWindow s i with
  | none => exact h
  | some w =>
    have hwmem : w ∈ s.windows := List.mem_of_find?_eq_some hg
    have hwid : w.id = i := by simpa using List.find?_some hg
    intro j
    dsimp only
    rw [mem_addMinimized]
    by_cases hji : j = i
    · subst hji
      constructor
      · intro _
        exact ⟨_, List.mem_map.2 ⟨w, hwmem, rfl⟩,
          by rw [if_pos hwid]; exact hwid, by rw [if_pos hwid]⟩
      · intro _
        exact Or.inr rfl
    · constructor
      · rintro (hj | rfl)
        · rcases (h j).1 hj with ⟨w', hw', hid, hmin⟩
          have hne : ¬ w'.id = i := by rw [hid]; exact hji
          exact ⟨_, List.mem_map.2 ⟨w', hw', rfl⟩,
            by rw [if_neg hne]; exact hid, by rw [if_neg hne]; exact hmin⟩
        · exact absurd rfl hji
      · rintro ⟨w', hw', hid, hmin⟩
        rcases mem_updateById hw' with ⟨w₀, hmem0, he⟩
        by_cases hwi : w₀.id = i
        · rw [he, if_pos hwi] at hid
          have h2 : w₀.id = j := hid
          exact absurd (h2 ▸ hwi) hji
        · rw [he, if_neg hwi] at hid hmin
          exact Or.inl ((h j).2 ⟨w₀, hmem0, hid, hmin⟩)

theorem coherent_restore (vp : Viewport) (s : WindowSystem) (i : Nat) (h : Coherent s) :
    Coherent (restoreWindow s vp i).1 := by
  unfold restoreWindow
  cases hg : getWindow s i with
  | none => exact h
  | some w =>
    refine coherent_front _ i ?_
    intro j
    dsimp only
    by_cases hji : j = i
    · subst hji
      constructor
      · intro hj
        have h2 := (List.mem_filter.1 hj).2
        simp at h2
      · rintro ⟨w', hw', hid, hmin⟩
        rcases mem_updateById hw' with ⟨w₀, hmem0, he⟩
        by_cases hwi : w₀.id = j
        · rw [he, if_pos hwi] at hmin
          have h2 : (false : Bool) = true := hmin
          cases h2
        · rw [he, if_neg hwi] at hid
          exact absurd hid hwi
    · constructor
      · intro hj
        have hj' := List.mem_filter.1 hj
        rcases (h j).1 hj'.1 with ⟨w', hw', hid, hmin⟩
        have hne : ¬ w'.id = i := by rw [hid]; exact hji
        exact ⟨_, List.mem_map.2 ⟨w', hw', rfl⟩,
          by rw [if_neg hne]; exact hid, by rw [if_neg hne]; exact hmin⟩
      · rintro ⟨w', hw', hid, hmin⟩
        rcases mem_updateById hw' with ⟨w₀, hmem0, he⟩
        by_cases hwi : w₀.id = i
        · rw [he, if_pos hwi] at hmin
          have h2 : (false : Bool) = true := hmin
          cases h2
        · rw [he, if_neg hwi] at hid hmin
          refine List.mem_filter.2 ⟨(h j).2 ⟨w₀, hmem0, hid, hmin⟩, ?_⟩
          simp [hji]

theorem exists_minimized_mapSet (ws : List WindowRecord) (r : WindowRecord)
    (hrmin : r.minimized = false) (j : Nat) :
    (∃ w' ∈ mapSet ws r, w'.id = j ∧ w'.minimized = true) ↔
      ((∃ w ∈ ws, w.id = j ∧ w.minimized = true) ∧ j ≠ r.id) := by
  unfold mapSet
  by_cases hany : ws.any (fun w => w.id == r.id) = true
  · rw [if_pos hany]
    constructor
    · rintro ⟨w', hw', hid, hmin⟩
      rcases mem_updateById hw' with ⟨w₀, hmem, he⟩
      by_cases hwi : w₀.id = r.id
      · rw [he, if_pos hwi] at hmin
        rw [hrmin] at hmin
        cases hmin
      · rw [he, if_neg hwi] at hid hmin
        exact ⟨⟨w₀, hmem, hid, hmin⟩, by rw [← hid]; exact hwi⟩
    · rintro ⟨⟨w, hw, hid, hmin⟩, hne⟩
      have hwne : ¬ w.id = r.id := by rw [hid]; exact hne
      exact ⟨_, List.mem_map.2 ⟨w, hw, rfl⟩,
        by rw [if_neg hwne]; exact hid, by rw [if_neg hwne]; exact hmin⟩
  · rw [if_neg hany]
    constructor
    · rintro ⟨w', hw', hid, hmin⟩
      rcases List.mem_append.1 hw' with hm | hm
      · refine ⟨⟨w', hm, hid, hmin⟩, ?_⟩
        intro hji
        exact hany (List.any_eq_true.2 ⟨w', hm, by simp [hid, hji]⟩)
      · rw [List.mem_singleton.1 hm] at hmin
        rw [hrmin] at hmin
        cases hmin
    · rintro ⟨⟨w, hw, hid, hmin⟩, hne⟩
      exact ⟨w, List.mem_append.2 (Or.inl hw), hid, hmin⟩

theorem coherent_create (vp : Viewport) (s : WindowSystem) (i : Nat) (ty : WinType)
    (cfg : WindowConfig) (hid : i ∉ s.minimizedWindows) (h : Coherent s) :
    Coherent (createWindow s vp i ty cfg).1 := by
  have hco := exists_minimized_mapSet s.windows (createWindow s vp i ty cfg).2 rfl
  intro j
  by_cases hji : j = i
  · subst hji
    constructor
    · intro hj
      exact absurd hj hid
    · intro hex
      rcases (hco j).1 hex with ⟨_, hne⟩
      exact absurd rfl hne
  · constructor
    · intro hj
      have hj' : j ∈ s.minimizedWindows := hj
      exact (hco j).2 ⟨(h j).1 hj', fun he => hji he⟩
    · intro hex
      rcases (hco j).1 hex with ⟨hold, _⟩
      exact ((h j).2 hold : j ∈ s.minimizedWindows)

theorem coherent_applyOp (vp : Viewport) (s : WindowSystem) (op : WinOp)
    (hop : opOK s op = true) (h : Coherent s) : Coherent (applyOp vp s op) := by
  cases op with
  | create i ty cfg =>
    have hid : i ∉ s.minimizedWindows := by
      intro hmem
      have hc : s.minimizedWindows.contains i = true :=
        List.contains_iff_exists_mem_beq.2 ⟨i, hmem, by simp⟩
      have hop2 : (!(s.minimizedWindows.contains i)) = true := hop
      rw [hc] at hop2
      cases hop2
    exact coherent_create vp s i ty cfg hid h
  | destroy i => exact coherent_destroy s i h
  | move i x y => exact coherent_move vp s i x y h
  | resize i a b => exact coherent_resize s i a b h
  | front i => exact coherent_front s i h
  | minimize i => exact coherent_minimize s i h
  | restore i => exact coherent_restore vp s i h

theorem coherent_empty : Coherent emptySystem := by
  intro j
  constructor
  · intro hj
    exact absurd hj (List.not_mem_nil j)
  · rintro ⟨w, hw, _, _⟩
    exact absurd hw (List.not_mem_nil w)

/-- C10 amended: starting from the empty registry, after every public
operation an id is in minimizedWindows iff its record's minimized flag is
true, provided create is never invoked on an id currently in the minimized
set (the counterexample shows that a duplicate create of a minimized window
resets the flag without cleaning the set). -/
theorem c10_amended_coherence (vp : Viewport) (ops : List WinOp)
    (h : chainOK vp emptySystem ops = true) :
    Coherent (applyOps vp emptySystem ops) := by
  have main : ∀ (l : List WinOp) (s : WindowSystem), Coherent s → chainOK vp s l = true →
      Coherent (applyOps vp s l) := by
    intro l
    induction l with
    | nil => intro s hs _; exact hs
    | cons op rest ih =>
      intro s hs hch
      have hch2 : (opOK s op && chainOK vp (applyOp vp s op) rest) = true := hch
      rw [Bool.and_eq_true] at hch2
      exact ih (applyOp vp s op) (coherent_applyOp vp s op hch2.1 hs) hch2.2
  exact main ops emptySystem coherent_empty h

def c10GoodOps : List WinOp :=
  [WinOp.create 1 WinType.list noCfg, WinOp.minimize 1, WinOp.restore 1,
   WinOp.create 2 WinType.list noCfg, WinOp.minimize 2, WinOp.destroy 2]

/-- Witness for C10 over a six-operation history. -/
theorem c10_witness :
    chainOK vp1920 emptySystem c10GoodOps = true ∧
    Coherent (applyOps vp1920 emptySystem c10GoodOps) :=
  ⟨by decide, c10_amended_coherence vp1920 c10GoodOps (by decide)⟩


end ListMaker
